import Mathlib

/-!
Verification of the model-deserialization core of RTNeural
(`RTNeural/model_loader.h`): a shallow embedding of the json values the
loader consumes, of the weight-loading routines (`loadDense`, `loadLSTM`),
the factories (`createDense`, `createLSTM`, `createActivation`), the
validators (`checkDense`, `checkLSTM`, `checkActivation`) and the top-level
builder (`parseJson`), together with theorems about shape resolution,
weight copying, validation and the build loop.

Exceptions thrown by `nlohmann::json` accessors are modelled by `Option`
(`none` = the build aborts). Numeric leaves are modelled as integers: the
loader only copies values, it never computes with them.
-/

set_option maxHeartbeats 1000000

namespace RTNeuralSpec

/-- Shallow embedding of the nlohmann json values consumed by
`model_loader.h`: numeric leaves, strings, arrays and objects. -/
inductive Json where
  | num (v : Int)
  | str (s : String)
  | arr (elems : List Json)
  | obj (fields : List (String × Json))

/-- nlohmann `at(i)`: bounds-checked element access; throws (here `none`) on
non-arrays and on out-of-range indices. -/
def Json.at? : Json → Nat → Option Json
  | .arr a, i => a[i]?
  | _, _ => none

/-- nlohmann `at(key)`: object lookup; throws (here `none`) when the key is
missing or the value is not an object. -/
def Json.key? : Json → String → Option Json
  | .obj o, k => (o.find? (fun p => p.1 == k)).map (fun p => p.2)
  | _, _ => none

/-- nlohmann `size()`: element count for arrays and objects, `1` for
primitive values. -/
def Json.size : Json → Nat
  | .arr a => a.length
  | .obj o => o.length
  | _ => 1

/-- nlohmann `back()` (`*--end()`): last element of an array or object, the
value itself for primitives; on an empty container the C++ is undefined
behaviour, modelled as `none`. -/
def Json.back? : Json → Option Json
  | .arr a => a.getLast?
  | .obj o => (o.getLast?).map (fun p => p.2)
  | j => some j

/-- nlohmann `get<T>()` for the numeric target type. -/
def Json.getInt? : Json → Option Int
  | .num v => some v
  | _ => none

/-- nlohmann `get<std::string>()`. -/
def Json.getStr? : Json → Option String
  | .str s => some s
  | _ => none

/-- nlohmann `get<std::vector<T>>()`. -/
def Json.getVec? : Json → Option (List Int)
  | .arr a => a.mapM Json.getInt?
  | _ => none

/-- nlohmann `is_array()`. -/
def Json.isArray : Json → Bool
  | .arr _ => true
  | _ => false

/-- nlohmann `contains(key)` (`false` on non-objects). -/
def Json.contains (j : Json) (k : String) : Bool :=
  (j.key? k).isSome

/-- The elements of an array value (only used after an `is_array` check). -/
def Json.arrElems : Json → List Json
  | .arr a => a
  | _ => []

/-- `mat.at(r).at(c) = v` on a `std::vector<std::vector<T>>`: bounds-checked
single-cell update; either index out of range throws (`none`). -/
def setMat? (m : List (List Int)) (r c : Nat) (v : Int) : Option (List (List Int)) :=
  match m[r]? with
  | none => none
  | some row => if c < row.length then some (m.set r (row.set c v)) else none

/-- Read one cell of a nested-vector matrix. -/
def getCell (m : List (List Int)) (r c : Nat) : Option Int :=
  m[r]?.bind (fun row => row[c]?)

/-- Two nested-vector matrices with the same row count and row lengths. -/
abbrev sameShape (m m' : List (List Int)) : Prop :=
  m'.length = m.length ∧
    ∀ k : Nat, (m'[k]?).map List.length = (m[k]?).map List.length

/-! ### Dense loading (`model_loader.h` lines 21-52) -/

/-- Body of the inner loop of `loadDense`:
`denseWeights.at(j).at(i) = lw.at(j).get<T>()`
(note the transposed write `(j, i)`). -/
def denseStep (i : Nat) (lw : Json) (m : List (List Int)) (j : Nat) :
    Option (List (List Int)) := do
  let x ← lw.at? j
  let v ← x.getInt?
  setMat? m j i v

/-- Inner loop of `loadDense` at source row `i`: `for j < lw.size()`. -/
def denseInnerLoop (i : Nat) (lw : Json) (m : List (List Int)) :
    Option (List (List Int)) :=
  (List.range lw.size).foldlM (denseStep i lw) m

/-- Body of the outer loop of `loadDense`:
`lw = layerWeights.at(i)` followed by the inner loop. -/
def denseOuterStep (layerWeights : Json) (m : List (List Int)) (i : Nat) :
    Option (List (List Int)) := do
  let lw ← layerWeights.at? i
  denseInnerLoop i lw m

/-- Kernel phase of `loadDense`: an `out_size × in_size` matrix,
zero-initialized, filled by the transposing double loop over
`layerWeights = weights.at(0)`. -/
def loadDenseKernel (in_size out_size : Int) (layerWeights : Json) :
    Option (List (List Int)) :=
  (List.range layerWeights.size).foldlM (denseOuterStep layerWeights)
    (List.replicate out_size.toNat (List.replicate in_size.toNat (0 : Int)))

/-- The `Dense<T>` layer as the loader sees it: the `in_size`/`out_size`
fields set by the constructor and the kernel/bias stores behind
`setWeights`/`setBias` (the layer class itself is outside this excerpt;
its mutators are modelled from the spec as plain stores). -/
structure Dense where
  in_size : Int
  out_size : Int
  kernel : List (List Int)
  bias : List Int
deriving DecidableEq, Repr

/-- `json_parser::loadDense`: transposed kernel copy from `weights.at(0)`,
then the bias vector from `weights.at(1)`. -/
def loadDense (in_size out_size : Int) (weights : Json) :
    Option (List (List Int) × List Int) := do
  let layerWeights ← weights.at? 0
  let kernel ← loadDenseKernel in_size out_size layerWeights
  let biasJson ← weights.at? 1
  let bias ← biasJson.getVec?
  pure (kernel, bias)

/-- `json_parser::createDense`: construct the layer with the given sizes and
populate it via `loadDense`. -/
def createDense (in_size out_size : Int) (weights : Json) : Option Dense := do
  let (kernel, bias) ← loadDense in_size out_size weights
  pure { in_size := in_size, out_size := out_size, kernel := kernel, bias := bias }

/-- `json_parser::checkDense` (the debug printing never affects the
verdict; the layer is taken by const reference and never mutated). -/
def checkDense (dense : Dense) (type : String) (layerDims : Int) : Bool :=
  if type ≠ "dense" ∧ type ≠ "time-distributed-dense" then false
  else if layerDims ≠ dense.out_size then false
  else true

/-! ### LSTM loading (`model_loader.h` lines 76-141) -/

/-- Body of the inner loop of `loadLSTM`:
`kernelWeights.at(i).at(j) = lw.at(j).get<T>()`
(no transposition: the write is `(i, j)`). -/
def lstmStep (i : Nat) (lw : Json) (m : List (List Int)) (j : Nat) :
    Option (List (List Int)) := do
  let x ← lw.at? j
  let v ← x.getInt?
  setMat? m i j v

/-- Inner loop of `loadLSTM` at source row `i`: `for j < lw.size()`. -/
def lstmInnerLoop (i : Nat) (lw : Json) (m : List (List Int)) :
    Option (List (List Int)) :=
  (List.range lw.size).foldlM (lstmStep i lw) m

/-- Body of the outer loop of `loadLSTM`. -/
def lstmOuterStep (layerWeights : Json) (m : List (List Int)) (i : Nat) :
    Option (List (List Int)) := do
  let lw ← layerWeights.at? i
  lstmInnerLoop i lw m

/-- One kernel phase of `loadLSTM`: a `rows × cols` matrix (`cols` is
`4 * out_size` at both call sites), zero-initialized, filled by the
non-transposing double loop. -/
def loadLSTMKernel (rows cols : Int) (layerWeights : Json) :
    Option (List (List Int)) :=
  (List.range layerWeights.size).foldlM (lstmOuterStep layerWeights)
    (List.replicate rows.toNat (List.replicate cols.toNat (0 : Int)))

/-- The `LSTMLayer<T>` as the loader sees it (sizes from the constructor;
`setWVals`/`setUVals`/`setBVals` modelled from the spec as plain stores). -/
structure LSTMLayer where
  in_size : Int
  out_size : Int
  wVals : List (List Int)
  uVals : List (List Int)
  bVals : List Int
deriving DecidableEq, Repr

/-- `json_parser::loadLSTM`: input kernel (`in_size` rows), recurrent kernel
(`out_size` rows), both `4 * out_size` wide, then the bias vector. -/
def loadLSTM (in_size out_size : Int) (weights : Json) :
    Option (List (List Int) × List (List Int) × List Int) := do
  let layerWeights ← weights.at? 0
  let kernel ← loadLSTMKernel in_size (4 * out_size) layerWeights
  let layerWeights2 ← weights.at? 1
  let recurrent ← loadLSTMKernel out_size (4 * out_size) layerWeights2
  let biasJson ← weights.at? 2
  let bias ← biasJson.getVec?
  pure (kernel, recurrent, bias)

/-- `json_parser::createLSTM`. -/
def createLSTM (in_size out_size : Int) (weights : Json) : Option LSTMLayer := do
  let (w, u, b) ← loadLSTM in_size out_size weights
  pure { in_size := in_size, out_size := out_size, wVals := w, uVals := u, bVals := b }

/-- `json_parser::checkLSTM`. -/
def checkLSTM (lstm : LSTMLayer) (type : String) (layerDims : Int) : Bool :=
  if type ≠ "lstm" then false
  else if layerDims ≠ lstm.out_size then false
  else true

/-! ### Activations (`model_loader.h` lines 146-186) -/

/-- An activation layer as the loader and validator see it: a size and the
self-reported name returned by `getName()` (the activation classes are
outside this excerpt; modelled from the spec, which gives each a read-only
size accessor and a self-reporting name accessor matching its tag). -/
structure Activation where
  out_size : Int
  name : String
deriving DecidableEq, Repr

/-- `json_parser::createActivation`: the five recognized tags construct the
matching activation sized to `dims`; any other tag returns an empty pointer
(`none`). -/
def createActivation (activationType : String) (dims : Int) : Option Activation :=
  if activationType = "tanh" then some ⟨dims, "tanh"⟩
  else if activationType = "relu" then some ⟨dims, "relu"⟩
  else if activationType = "sigmoid" then some ⟨dims, "sigmoid"⟩
  else if activationType = "softmax" then some ⟨dims, "softmax"⟩
  else if activationType = "elu" then some ⟨dims, "elu"⟩
  else none

/-- `json_parser::checkActivation` (size first, then self-reported name). -/
def checkActivation (actLayer : Activation) (activationType : String) (dims : Int) : Bool :=
  if dims ≠ actLayer.out_size then false
  else if activationType ≠ actLayer.name then false
  else true

/-! ### The model and the build loop (`model_loader.h` lines 188-252) -/

/-- A layer owned by the model. -/
inductive Layer where
  | dense (d : Dense)
  | lstm (u : LSTMLayer)
  | activation (a : Activation)
deriving DecidableEq, Repr

/-- Modelled from the spec: `Model<T>` (declared in Model.h, outside this
excerpt) owns the ordered layer sequence and tracks the "next expected input
size", seeded with the input dimensionality and becoming a weight-bearing
layer's output size after that layer is appended. `addLayer` takes ownership
of a raw possibly-null pointer and appends it as given; a `none` entry
models a null pointer. -/
structure Model where
  inSize : Int
  layers : List (Option Layer)
  nextIn : Int
deriving DecidableEq, Repr

/-- Modelled from the spec: a model created empty with only the initial
input dimensionality. -/
def Model.new (dims : Int) : Model := ⟨dims, [], dims⟩

/-- Modelled from the spec: append an owned (possibly null) layer pointer. -/
def Model.addLayer (m : Model) (l : Option Layer) : Model :=
  { m with
    layers := m.layers ++ [l]
    nextIn := match l with
      | some (.dense d) => d.out_size
      | some (.lstm u) => u.out_size
      | _ => m.nextIn }

/-- Modelled from the spec: the "next expected input size" query. -/
def Model.getNextInSize (m : Model) : Int := m.nextIn

/-- The shape-resolution expression used at lines 198 and 212 of
model_loader.h:
`shape.size() == 4 ? shape[2].get<int>() * shape[3].get<int>() : shape.back().get<int>()`. -/
def resolveShape (shape : Json) : Option Int :=
  if shape.size = 4 then do
    let a ← (shape.at? 2).bind Json.getInt?
    let b ← (shape.at? 3).bind Json.getInt?
    pure (a * b)
  else (shape.back?).bind Json.getInt?

/-- The `add_activation` lambda inside `parseJson` (captures `layerDims` by
value): if the entry has an `activation` field and its string value is
non-empty, construct the activation and append the released pointer —
whatever `createActivation` returned. -/
def addActivation (layerDims : Int) (m : Model) (l : Json) : Option Model :=
  if l.contains "activation" then do
    let activationType ← (l.key? "activation").bind Json.getStr?
    if activationType = "" then pure m
    else pure (m.addLayer ((createActivation activationType layerDims).map Layer.activation))
  else pure m

/-- One iteration of the layer loop in `json_parser::parseJson`: the entry's
`type`, `shape` (resolved to `layerDims`) and `weights` fields are all read
before the dispatch on `type`. -/
def processLayer (m : Model) (l : Json) : Option Model := do
  let type ← (l.key? "type").bind Json.getStr?
  let layerShape ← l.key? "shape"
  let layerDims ← resolveShape layerShape
  let weights ← l.key? "weights"
  if type = "dense" ∨ type = "time-distributed-dense" then do
    let dense ← createDense m.getNextInSize layerDims weights
    addActivation layerDims (m.addLayer (some (.dense dense))) l
  else if type = "lstm" then do
    let u ← createLSTM m.getNextInSize layerDims weights
    pure (m.addLayer (some (.lstm u)))
  else if type = "activation" then
    addActivation layerDims m l
  else pure m

/-- `json_parser::parseJson` (the json-value overload): read `in_shape` and
`layers` (a missing key throws), bail out with a null model unless both are
arrays, resolve the input dimensionality, then run the layer loop. -/
def parseJson (parent : Json) : Option Model := do
  let shape ← parent.key? "in_shape"
  let layers ← parent.key? "layers"
  if shape.isArray ∧ layers.isArray then do
    let nDims ← resolveShape shape
    (layers.arrElems).foldlM processLayer (Model.new nDims)
  else none

/-! ### Lemmas: single-cell updates -/

theorem setMat?_spec {m m' : List (List Int)} {r c : Nat} {v : Int}
    (h : setMat? m r c v = some m') :
    ∃ row, m[r]? = some row ∧ c < row.length ∧ m' = m.set r (row.set c v) := by
  unfold setMat? at h
  split at h
  next => simp at h
  next row hr =>
    split at h
    next hc => exact ⟨row, hr, hc, (Option.some_inj.mp h).symm⟩
    next hc => simp at h

theorem setMat?_getCell_same {m m' : List (List Int)} {r c : Nat} {v : Int}
    (h : setMat? m r c v = some m') : getCell m' r c = some v := by
  obtain ⟨row, hr, hc, rfl⟩ := setMat?_spec h
  have hrlen : r < m.length := (List.getElem?_eq_some.mp hr).1
  simp [getCell, List.getElem?_set, hrlen, hc]

theorem setMat?_getCell_ne {m m' : List (List Int)} {r c : Nat} {v : Int}
    (h : setMat? m r c v = some m') {a b : Nat} (hne : a ≠ r ∨ b ≠ c) :
    getCell m' a b = getCell m a b := by
  obtain ⟨row, hr, hc, rfl⟩ := setMat?_spec h
  rcases hne with hne | hne
  · simp [getCell, List.getElem?_set_ne (Ne.symm hne)]
  · by_cases har : a = r
    · subst har
      have hrlen : a < m.length := (List.getElem?_eq_some.mp hr).1
      simp [getCell, List.getElem?_set, hrlen, hr, List.getElem?_set_ne (Ne.symm hne)]
    · simp [getCell, List.getElem?_set_ne (Ne.symm har)]

theorem setMat?_sameShape {m m' : List (List Int)} {r c : Nat} {v : Int}
    (h : setMat? m r c v = some m') : sameShape m m' := by
  obtain ⟨row, hr, hc, rfl⟩ := setMat?_spec h
  refine ⟨by simp, fun k => ?_⟩
  by_cases hk : r = k
  · subst hk
    have hrlen : r < m.length := (List.getElem?_eq_some.mp hr).1
    simp [List.getElem?_set, hrlen, hr]
  · simp [List.getElem?_set_ne hk]

theorem sameShape_refl (m : List (List Int)) : sameShape m m := ⟨rfl, fun _ => rfl⟩

theorem sameShape_trans {a b c : List (List Int)} (h1 : sameShape a b)
    (h2 : sameShape b c) : sameShape a c :=
  ⟨h2.1.trans h1.1, fun k => (h2.2 k).trans (h1.2 k)⟩

theorem sameShape_row_transfer {m m1 : List (List Int)} (hs : sameShape m m1)
    {j : Nat} {row1 : List Int} (hr1 : m1[j]? = some row1) :
    ∃ row, m[j]? = some row ∧ row.length = row1.length := by
  have hk := hs.2 j
  rw [hr1] at hk
  cases hm : m[j]? with
  | none => rw [hm] at hk; simp at hk
  | some row =>
    rw [hm] at hk
    simp only [Option.map_some', Option.some.injEq] at hk
    exact ⟨row, rfl, hk.symm⟩

/-- An invariant carried through an option-valued left fold. -/
theorem foldlM_option_rel {α β : Type} {R : β → β → Prop}
    (hrefl : ∀ b, R b b) (htrans : ∀ a b c, R a b → R b c → R a c)
    {f : β → α → Option β} (hstep : ∀ b a b2, f b a = some b2 → R b b2)
    {l : List α} : ∀ {b b2 : β}, List.foldlM f b l = some b2 → R b b2 := by
  induction l with
  | nil =>
    intro b b2 h
    simp only [List.foldlM_nil, Option.pure_def, Option.some.injEq] at h
    exact h ▸ hrefl b
  | cons a l ih =>
    intro b b2 h
    simp only [List.foldlM_cons, Option.bind_eq_bind, Option.bind_eq_some] at h
    obtain ⟨b1, h1, h2⟩ := h
    exact htrans _ _ _ (hstep _ _ _ h1) (ih h2)

/-! ### Lemmas: the dense loading loops -/

theorem denseStep_spec {i : Nat} {lw : Json} {m m' : List (List Int)} {j : Nat}
    (h : denseStep i lw m j = some m') :
    ∃ x v, lw.at? j = some x ∧ x.getInt? = some v ∧ setMat? m j i v = some m' := by
  unfold denseStep at h
  simp only [Option.bind_eq_bind, Option.bind_eq_some] at h
  obtain ⟨x, hx, v, hv, h⟩ := h
  exact ⟨x, v, hx, hv, h⟩

theorem denseStep_sameShape {i : Nat} {lw : Json} {m m' : List (List Int)} {j : Nat}
    (h : denseStep i lw m j = some m') : sameShape m m' := by
  obtain ⟨x, v, _, _, hset⟩ := denseStep_spec h
  exact setMat?_sameShape hset

theorem denseInnerLoop_sameShape {i : Nat} {lw : Json} {m m' : List (List Int)}
    (h : denseInnerLoop i lw m = some m') : sameShape m m' := by
  unfold denseInnerLoop at h
  exact foldlM_option_rel sameShape_refl (fun a b c => sameShape_trans)
    (fun m0 j m1 hs => denseStep_sameShape hs) h

theorem denseInnerLoop_frame {i : Nat} {lw : Json} {m m' : List (List Int)}
    (h : denseInnerLoop i lw m = some m') :
    ∀ r c, c ≠ i → getCell m' r c = getCell m r c := by
  unfold denseInnerLoop at h
  refine foldlM_option_rel
    (R := fun m0 m1 => ∀ r c, c ≠ i → getCell m1 r c = getCell m0 r c)
    (fun _ _ _ _ => rfl)
    (fun a b c h1 h2 r cc hcc => (h2 r cc hcc).trans (h1 r cc hcc)) ?_ h
  intro m0 j m1 hs r cc hcc
  obtain ⟨x, v, _, _, hset⟩ := denseStep_spec hs
  exact setMat?_getCell_ne hset (Or.inr hcc)

theorem denseInnerLoop_val_aux {i : Nat} {lw : Json} :
    ∀ (n : Nat) (m m' : List (List Int)),
      List.foldlM (denseStep i lw) m (List.range n) = some m' →
      ∀ j, j < n → ∀ v, lw.at? j = some (.num v) → getCell m' j i = some v := by
  intro n
  induction n with
  | zero => intro m m' h j hj v hv; omega
  | succ n ih =>
    intro m m' h j hj v hv
    rw [List.range_succ, List.foldlM_append] at h
    simp only [Option.bind_eq_bind, Option.bind_eq_some] at h
    obtain ⟨m1, h1, h2⟩ := h
    simp only [List.foldlM_cons, List.foldlM_nil, bind_pure] at h2
    by_cases hj2 : j = n
    · subst hj2
      obtain ⟨x, v2, hx, hv2, hset⟩ := denseStep_spec h2
      rw [hv] at hx
      have hx2 : Json.num v = x := Option.some_inj.mp hx
      rw [← hx2] at hv2
      have hv3 : v = v2 := Option.some_inj.mp hv2
      rw [← hv3] at hset
      exact setMat?_getCell_same hset
    · have hm1 : getCell m1 j i = some v := ih m m1 h1 j (by omega) v hv
      obtain ⟨x, v2, hx, hv2, hset⟩ := denseStep_spec h2
      rw [setMat?_getCell_ne hset (Or.inl hj2), hm1]

theorem denseInnerLoop_val {i : Nat} {row : List Json} {m m' : List (List Int)}
    (h : denseInnerLoop i (.arr row) m = some m') :
    ∀ j v, row[j]? = some (.num v) → getCell m' j i = some v := by
  intro j v hv
  have hj : j < row.length := (List.getElem?_eq_some.mp hv).1
  exact denseInnerLoop_val_aux row.length m m' h j hj v hv

theorem denseInnerLoop_bound_aux {i : Nat} {lw : Json} :
    ∀ (n : Nat) (m m' : List (List Int)),
      List.foldlM (denseStep i lw) m (List.range n) = some m' →
      ∀ j, j < n → j < m.length ∧ ∃ row, m[j]? = some row ∧ i < row.length := by
  intro n
  induction n with
  | zero => intro m m' h j hj; omega
  | succ n ih =>
    intro m m' h j hj
    rw [List.range_succ, List.foldlM_append] at h
    simp only [Option.bind_eq_bind, Option.bind_eq_some] at h
    obtain ⟨m1, h1, h2⟩ := h
    simp only [List.foldlM_cons, List.foldlM_nil, bind_pure] at h2
    by_cases hj2 : j = n
    · subst hj2
      obtain ⟨x, v, hx, hv, hset⟩ := denseStep_spec h2
      obtain ⟨row1, hr1, hc1, _⟩ := setMat?_spec hset
      have hshape : sameShape m m1 := foldlM_option_rel sameShape_refl
        (fun a b c => sameShape_trans) (fun m0 j0 m2 hs => denseStep_sameShape hs) h1
      obtain ⟨row, hr, hlen⟩ := sameShape_row_transfer hshape hr1
      have hjlen : j < m1.length := (List.getElem?_eq_some.mp hr1).1
      exact ⟨hshape.1 ▸ hjlen, row, hr, by rw [hlen]; exact hc1⟩
    · exact ih m m1 h1 j (by omega)

theorem denseInnerLoop_bound {i : Nat} {lw : Json} {m m' : List (List Int)}
    (h : denseInnerLoop i lw m = some m') :
    ∀ j, j < lw.size → j < m.length ∧ ∃ row, m[j]? = some row ∧ i < row.length := by
  unfold denseInnerLoop at h
  exact denseInnerLoop_bound_aux lw.size m m' h

theorem denseOuterStep_spec {lwj : Json} {m m' : List (List Int)} {i : Nat}
    (h : denseOuterStep lwj m i = some m') :
    ∃ lw, lwj.at? i = some lw ∧ denseInnerLoop i lw m = some m' := by
  unfold denseOuterStep at h
  simp only [Option.bind_eq_bind, Option.bind_eq_some] at h
  exact h

theorem denseOuterStep_sameShape {lwj : Json} {m m' : List (List Int)} {i : Nat}
    (h : denseOuterStep lwj m i = some m') : sameShape m m' := by
  obtain ⟨lw, _, hinner⟩ := denseOuterStep_spec h
  exact denseInnerLoop_sameShape hinner

theorem denseOuterRange_sameShape {lwj : Json} {l : List Nat} {m m' : List (List Int)}
    (h : List.foldlM (denseOuterStep lwj) m l = some m') : sameShape m m' :=
  foldlM_option_rel sameShape_refl (fun a b c => sameShape_trans)
    (fun m0 i m1 hs => denseOuterStep_sameShape hs) h

theorem loadDenseKernel_val_aux {lwj : Json} :
    ∀ (n : Nat) (m m' : List (List Int)),
      List.foldlM (denseOuterStep lwj) m (List.range n) = some m' →
      ∀ i, i < n → ∀ (row : List Json) (o : Nat) (v : Int),
        lwj.at? i = some (.arr row) → row[o]? = some (.num v) →
        getCell m' o i = some v := by
  intro n
  induction n with
  | zero => intro m m' h i hi; omega
  | succ n ih =>
    intro m m' h i hi row o v hrow hcell
    rw [List.range_succ, List.foldlM_append] at h
    simp only [Option.bind_eq_bind, Option.bind_eq_some] at h
    obtain ⟨m1, h1, h2⟩ := h
    simp only [List.foldlM_cons, List.foldlM_nil, bind_pure] at h2
    obtain ⟨lw, hlw, hinner⟩ := denseOuterStep_spec h2
    by_cases hi2 : i = n
    · subst hi2
      rw [hrow] at hlw
      have hlw2 : Json.arr row = lw := Option.some_inj.mp hlw
      subst hlw2
      exact denseInnerLoop_val hinner o v hcell
    · have hm1 : getCell m1 o i = some v := ih m m1 h1 i (by omega) row o v hrow hcell
      rw [denseInnerLoop_frame hinner o i hi2, hm1]

theorem loadDenseKernel_val {in_size out_size : Int} {rows : List Json}
    {K : List (List Int)}
    (h : loadDenseKernel in_size out_size (.arr rows) = some K) :
    ∀ (i : Nat) (row : List Json) (o : Nat) (v : Int),
      rows[i]? = some (.arr row) → row[o]? = some (.num v) →
      getCell K o i = some v := by
  intro i row o v hrow hcell
  have hi : i < rows.length := (List.getElem?_eq_some.mp hrow).1
  unfold loadDenseKernel at h
  exact loadDenseKernel_val_aux rows.length _ K h i hi row o v hrow hcell

theorem loadDenseKernel_bound_aux {lwj : Json} :
    ∀ (n : Nat) (m m' : List (List Int)),
      List.foldlM (denseOuterStep lwj) m (List.range n) = some m' →
      ∀ i, i < n → ∀ lw, lwj.at? i = some lw →
        ∀ j, j < lw.size → j < m.length ∧ ∃ row, m[j]? = some row ∧ i < row.length := by
  intro n
  induction n with
  | zero => intro m m' h i hi; omega
  | succ n ih =>
    intro m m' h i hi lw hlw j hj
    rw [List.range_succ, List.foldlM_append] at h
    simp only [Option.bind_eq_bind, Option.bind_eq_some] at h
    obtain ⟨m1, h1, h2⟩ := h
    simp only [List.foldlM_cons, List.foldlM_nil, bind_pure] at h2
    by_cases hi2 : i = n
    · subst hi2
      obtain ⟨lw2, hlw2, hinner⟩ := denseOuterStep_spec h2
      rw [hlw] at hlw2
      have hlw3 : lw = lw2 := Option.some_inj.mp hlw2
      subst hlw3
      have hb := denseInnerLoop_bound hinner j hj
      obtain ⟨hjlen, row1, hr1, hi1⟩ := hb
      have hshape : sameShape m m1 := denseOuterRange_sameShape h1
      obtain ⟨row, hr, hlen⟩ := sameShape_row_transfer hshape hr1
      exact ⟨hshape.1 ▸ hjlen, row, hr, by rw [hlen]; exact hi1⟩
    · exact ih m m1 h1 i (by omega) lw hlw j hj

theorem loadDenseKernel_bound {in_size out_size : Int} {lwj : Json}
    {K : List (List Int)} (h : loadDenseKernel in_size out_size lwj = some K) :
    ∀ (i : Nat) (lw : Json), lwj.at? i = some lw →
      ∀ j, j < lw.size → j < out_size.toNat ∧ i < in_size.toNat := by
  intro i lw hlw j hj
  unfold loadDenseKernel at h
  have hi : i < lwj.size := by
    cases lwj <;> simp [Json.at?] at hlw
    case arr a =>
      obtain ⟨hlt, _⟩ := List.getElem?_eq_some.mp ‹a[i]? = some lw›
      simpa [Json.size] using hlt
  have hb := loadDenseKernel_bound_aux lwj.size _ K h i hi lw hlw j hj
  obtain ⟨hjlen, row, hr, hrow⟩ := hb
  constructor
  · simpa using hjlen
  · rw [List.getElem?_replicate] at hr
    by_cases hjn : j < out_size.toNat
    · rw [if_pos hjn] at hr
      have : List.replicate in_size.toNat (0 : Int) = row := Option.some_inj.mp hr
      rw [← this] at hrow
      simpa using hrow
    · rw [if_neg hjn] at hr
      exact absurd hr (by simp)

/-! ### Lemmas: the LSTM loading loops (same structure, untransposed writes) -/

theorem lstmStep_spec {i : Nat} {lw : Json} {m m' : List (List Int)} {j : Nat}
    (h : lstmStep i lw m j = some m') :
    ∃ x v, lw.at? j = some x ∧ x.getInt? = some v ∧ setMat? m i j v = some m' := by
  unfold lstmStep at h
  simp only [Option.bind_eq_bind, Option.bind_eq_some] at h
  obtain ⟨x, hx, v, hv, h⟩ := h
  exact ⟨x, v, hx, hv, h⟩

theorem lstmStep_sameShape {i : Nat} {lw : Json} {m m' : List (List Int)} {j : Nat}
    (h : lstmStep i lw m j = some m') : sameShape m m' := by
  obtain ⟨x, v, _, _, hset⟩ := lstmStep_spec h
  exact setMat?_sameShape hset

theorem lstmInnerLoop_sameShape {i : Nat} {lw : Json} {m m' : List (List Int)}
    (h : lstmInnerLoop i lw m = some m') : sameShape m m' := by
  unfold lstmInnerLoop at h
  exact foldlM_option_rel sameShape_refl (fun a b c => sameShape_trans)
    (fun m0 j m1 hs => lstmStep_sameShape hs) h

theorem lstmInnerLoop_frame {i : Nat} {lw : Json} {m m' : List (List Int)}
    (h : lstmInnerLoop i lw m = some m') :
    ∀ r c, r ≠ i → getCell m' r c = getCell m r c := by
  unfold lstmInnerLoop at h
  refine foldlM_option_rel
    (R := fun m0 m1 => ∀ r c, r ≠ i → getCell m1 r c = getCell m0 r c)
    (fun _ _ _ _ => rfl)
    (fun a b c h1 h2 r cc hcc => (h2 r cc hcc).trans (h1 r cc hcc)) ?_ h
  intro m0 j m1 hs r cc hcc
  obtain ⟨x, v, _, _, hset⟩ := lstmStep_spec hs
  exact setMat?_getCell_ne hset (Or.inl hcc)

theorem lstmInnerLoop_val_aux {i : Nat} {lw : Json} :
    ∀ (n : Nat) (m m' : List (List Int)),
      List.foldlM (lstmStep i lw) m (List.range n) = some m' →
      ∀ j, j < n → ∀ v, lw.at? j = some (.num v) → getCell m' i j = some v := by
  intro n
  induction n with
  | zero => intro m m' h j hj v hv; omega
  | succ n ih =>
    intro m m' h j hj v hv
    rw [List.range_succ, List.foldlM_append] at h
    simp only [Option.bind_eq_bind, Option.bind_eq_some] at h
    obtain ⟨m1, h1, h2⟩ := h
    simp only [List.foldlM_cons, List.foldlM_nil, bind_pure] at h2
    by_cases hj2 : j = n
    · subst hj2
      obtain ⟨x, v2, hx, hv2, hset⟩ := lstmStep_spec h2
      rw [hv] at hx
      have hx2 : Json.num v = x := Option.some_inj.mp hx
      rw [← hx2] at hv2
      have hv3 : v = v2 := Option.some_inj.mp hv2
      rw [← hv3] at hset
      exact setMat?_getCell_same hset
    · have hm1 : getCell m1 i j = some v := ih m m1 h1 j (by omega) v hv
      obtain ⟨x, v2, hx, hv2, hset⟩ := lstmStep_spec h2
      rw [setMat?_getCell_ne hset (Or.inr hj2), hm1]

theorem lstmInnerLoop_val {i : Nat} {row : List Json} {m m' : List (List Int)}
    (h : lstmInnerLoop i (.arr row) m = some m') :
    ∀ j v, row[j]? = some (.num v) → getCell m' i j = some v := by
  intro j v hv
  have hj : j < row.length := (List.getElem?_eq_some.mp hv).1
  exact lstmInnerLoop_val_aux row.length m m' h j hj v hv

theorem lstmInnerLoop_bound_aux {i : Nat} {lw : Json} :
    ∀ (n : Nat) (m m' : List (List Int)),
      List.foldlM (lstmStep i lw) m (List.range n) = some m' →
      ∀ j, j < n → i < m.length ∧ ∃ row, m[i]? = some row ∧ j < row.length := by
  intro n
  induction n with
  | zero => intro m m' h j hj; omega
  | succ n ih =>
    intro m m' h j hj
    rw [List.range_succ, List.foldlM_append] at h
    simp only [Option.bind_eq_bind, Option.bind_eq_some] at h
    obtain ⟨m1, h1, h2⟩ := h
    simp only [List.foldlM_cons, List.foldlM_nil, bind_pure] at h2
    by_cases hj2 : j = n
    · subst hj2
      obtain ⟨x, v, hx, hv, hset⟩ := lstmStep_spec h2
      obtain ⟨row1, hr1, hc1, _⟩ := setMat?_spec hset
      have hshape : sameShape m m1 := foldlM_option_rel sameShape_refl
        (fun a b c => sameShape_trans) (fun m0 j0 m2 hs => lstmStep_sameShape hs) h1
      obtain ⟨row, hr, hlen⟩ := sameShape_row_transfer hshape hr1
      have hilen : i < m1.length := (List.getElem?_eq_some.mp hr1).1
      exact ⟨hshape.1 ▸ hilen, row, hr, by rw [hlen]; exact hc1⟩
    · exact ih m m1 h1 j (by omega)

theorem lstmInnerLoop_bound {i : Nat} {lw : Json} {m m' : List (List Int)}
    (h : lstmInnerLoop i lw m = some m') :
    ∀ j, j < lw.size → i < m.length ∧ ∃ row, m[i]? = some row ∧ j < row.length := by
  unfold lstmInnerLoop at h
  exact lstmInnerLoop_bound_aux lw.size m m' h

theorem lstmOuterStep_spec {lwj : Json} {m m' : List (List Int)} {i : Nat}
    (h : lstmOuterStep lwj m i = some m') :
    ∃ lw, lwj.at? i = some lw ∧ lstmInnerLoop i lw m = some m' := by
  unfold lstmOuterStep at h
  simp only [Option.bind_eq_bind, Option.bind_eq_some] at h
  exact h

theorem lstmOuterStep_sameShape {lwj : Json} {m m' : List (List Int)} {i : Nat}
    (h : lstmOuterStep lwj m i = some m') : sameShape m m' := by
  obtain ⟨lw, _, hinner⟩ := lstmOuterStep_spec h
  exact lstmInnerLoop_sameShape hinner

theorem lstmOuterRange_sameShape {lwj : Json} {l : List Nat} {m m' : List (List Int)}
    (h : List.foldlM (lstmOuterStep lwj) m l = some m') : sameShape m m' :=
  foldlM_option_rel sameShape_refl (fun a b c => sameShape_trans)
    (fun m0 i m1 hs => lstmOuterStep_sameShape hs) h

theorem loadLSTMKernel_val_aux {lwj : Json} :
    ∀ (n : Nat) (m m' : List (List Int)),
      List.foldlM (lstmOuterStep lwj) m (List.range n) = some m' →
      ∀ i, i < n → ∀ (row : List Json) (j : Nat) (v : Int),
        lwj.at? i = some (.arr row) → row[j]? = some (.num v) →
        getCell m' i j = some v := by
  intro n
  induction n with
  | zero => intro m m' h i hi; omega
  | succ n ih =>
    intro m m' h i hi row j v hrow hcell
    rw [List.range_succ, List.foldlM_append] at h
    simp only [Option.bind_eq_bind, Option.bind_eq_some] at h
    obtain ⟨m1, h1, h2⟩ := h
    simp only [List.foldlM_cons, List.foldlM_nil, bind_pure] at h2
    obtain ⟨lw, hlw, hinner⟩ := lstmOuterStep_spec h2
    by_cases hi2 : i = n
    · subst hi2
      rw [hrow] at hlw
      have hlw2 : Json.arr row = lw := Option.some_inj.mp hlw
      subst hlw2
      exact lstmInnerLoop_val hinner j v hcell
    · have hm1 : getCell m1 i j = some v := ih m m1 h1 i (by omega) row j v hrow hcell
      rw [lstmInnerLoop_frame hinner i j hi2, hm1]

theorem loadLSTMKernel_val {rows cols : Int} {src : List Json} {K : List (List Int)}
    (h : loadLSTMKernel rows cols (.arr src) = some K) :
    ∀ (i : Nat) (row : List Json) (j : Nat) (v : Int),
      src[i]? = some (.arr row) → row[j]? = some (.num v) →
      getCell K i j = some v := by
  intro i row j v hrow hcell
  have hi : i < src.length := (List.getElem?_eq_some.mp hrow).1
  unfold loadLSTMKernel at h
  exact loadLSTMKernel_val_aux src.length _ K h i hi row j v hrow hcell

theorem loadLSTMKernel_sameShape {rows cols : Int} {lwj : Json} {K : List (List Int)}
    (h : loadLSTMKernel rows cols lwj = some K) :
    sameShape (List.replicate rows.toNat (List.replicate cols.toNat (0 : Int))) K := by
  unfold loadLSTMKernel at h
  exact lstmOuterRange_sameShape h

theorem loadLSTMKernel_shape {rows cols : Int} {lwj : Json} {K : List (List Int)}
    (h : loadLSTMKernel rows cols lwj = some K) :
    K.length = rows.toNat ∧ ∀ r ∈ K, r.length = cols.toNat := by
  have hs := loadLSTMKernel_sameShape h
  constructor
  · simpa using hs.1
  · intro r hr
    obtain ⟨k, hk⟩ := List.mem_iff_getElem?.mp hr
    have hmap := hs.2 k
    rw [hk] at hmap
    have hklen : k < K.length := (List.getElem?_eq_some.mp hk).1
    have hkr : k < rows.toNat := by
      have := hs.1
      simp at this
      omega
    rw [List.getElem?_replicate, if_pos hkr] at hmap
    simpa using hmap

theorem loadLSTMKernel_bound_aux {lwj : Json} :
    ∀ (n : Nat) (m m' : List (List Int)),
      List.foldlM (lstmOuterStep lwj) m (List.range n) = some m' →
      ∀ i, i < n → ∀ lw, lwj.at? i = some lw →
        ∀ j, j < lw.size → i < m.length ∧ ∃ row, m[i]? = some row ∧ j < row.length := by
  intro n
  induction n with
  | zero => intro m m' h i hi; omega
  | succ n ih =>
    intro m m' h i hi lw hlw j hj
    rw [List.range_succ, List.foldlM_append] at h
    simp only [Option.bind_eq_bind, Option.bind_eq_some] at h
    obtain ⟨m1, h1, h2⟩ := h
    simp only [List.foldlM_cons, List.foldlM_nil, bind_pure] at h2
    by_cases hi2 : i = n
    · subst hi2
      obtain ⟨lw2, hlw2, hinner⟩ := lstmOuterStep_spec h2
      rw [hlw] at hlw2
      have hlw3 : lw = lw2 := Option.some_inj.mp hlw2
      subst hlw3
      have hb := lstmInnerLoop_bound hinner j hj
      obtain ⟨hilen, row1, hr1, hj1⟩ := hb
      have hshape : sameShape m m1 := lstmOuterRange_sameShape h1
      obtain ⟨row, hr, hlen⟩ := sameShape_row_transfer hshape hr1
      exact ⟨hshape.1 ▸ hilen, row, hr, by rw [hlen]; exact hj1⟩
    · exact ih m m1 h1 i (by omega) lw hlw j hj

theorem loadLSTMKernel_bound {rows cols : Int} {lwj : Json} {K : List (List Int)}
    (h : loadLSTMKernel rows cols lwj = some K) :
    ∀ (i : Nat) (lw : Json), lwj.at? i = some lw →
      ∀ j, j < lw.size → i < rows.toNat ∧ j < cols.toNat := by
  intro i lw hlw j hj
  unfold loadLSTMKernel at h
  have hi : i < lwj.size := by
    cases lwj <;> simp [Json.at?] at hlw
    case arr a =>
      obtain ⟨hlt, _⟩ := List.getElem?_eq_some.mp ‹a[i]? = some lw›
      simpa [Json.size] using hlt
  have hb := loadLSTMKernel_bound_aux lwj.size _ K h i hi lw hlw j hj
  obtain ⟨hilen, row, hr, hrow⟩ := hb
  constructor
  · simpa using hilen
  · rw [List.getElem?_replicate] at hr
    by_cases hin : i < rows.toNat
    · rw [if_pos hin] at hr
      have hr2 : List.replicate cols.toNat (0 : Int) = row := Option.some_inj.mp hr
      rw [← hr2] at hrow
      simpa using hrow
    · rw [if_neg hin] at hr
      exact absurd hr (by simp)

/-! ### Lemmas: decomposition of the layer factories -/

theorem createDense_spec {in_size out_size : Int} {w : Json} {d : Dense}
    (h : createDense in_size out_size w = some d) :
    ∃ lwj K bj bv, w.at? 0 = some lwj ∧
      loadDenseKernel in_size out_size lwj = some K ∧
      w.at? 1 = some bj ∧ bj.getVec? = some bv ∧
      d = ⟨in_size, out_size, K, bv⟩ := by
  unfold createDense loadDense at h
  simp only [Option.bind_eq_bind, Option.bind_eq_some, Option.pure_def,
    Option.some.injEq] at h
  obtain ⟨a, ⟨lwj, hlwj, K, hK, bj, hbj, bv, hbv, hpair⟩, hd⟩ := h
  subst hpair
  exact ⟨lwj, K, bj, bv, hlwj, hK, hbj, hbv, hd.symm⟩

theorem createLSTM_spec {in_size out_size : Int} {w : Json} {u : LSTMLayer}
    (h : createLSTM in_size out_size w = some u) :
    ∃ lwj Kw lwj2 Ku bj bv, w.at? 0 = some lwj ∧
      loadLSTMKernel in_size (4 * out_size) lwj = some Kw ∧
      w.at? 1 = some lwj2 ∧
      loadLSTMKernel out_size (4 * out_size) lwj2 = some Ku ∧
      w.at? 2 = some bj ∧ bj.getVec? = some bv ∧
      u = ⟨in_size, out_size, Kw, Ku, bv⟩ := by
  unfold createLSTM loadLSTM at h
  simp only [Option.bind_eq_bind, Option.bind_eq_some, Option.pure_def,
    Option.some.injEq] at h
  obtain ⟨a, ⟨lwj, hlwj, Kw, hKw, lwj2, hlwj2, Ku, hKu, bj, hbj, bv,
    hbv, htup⟩, hu⟩ := h
  subst htup
  exact ⟨lwj, Kw, lwj2, Ku, bj, bv, hlwj, hKw, hlwj2, hKu, hbj, hbv, hu.symm⟩

/-! ### Claims C1-C4: weight loading -/

/-- **C1**: a dense (or time-distributed-dense) layer built from a weights
block carries the transpose of the source nested array — wherever the
source has a value at `[i][o]`, the loaded kernel has it at `[o][i]` — and
its bias vector equals the source bias array element for element. -/
theorem dense_load_transposes {in_size out_size : Int} {w : Json} {d : Dense}
    {rows row : List Json} {i o : Nat} {v : Int} {bj : Json} {bv : List Int}
    (hbuild : createDense in_size out_size w = some d)
    (hsrc : w.at? 0 = some (.arr rows))
    (hrow : rows[i]? = some (.arr row))
    (hcell : row[o]? = some (.num v))
    (hbj : w.at? 1 = some bj)
    (hbv : bj.getVec? = some bv) :
    getCell d.kernel o i = some v ∧ d.bias = bv := by
  obtain ⟨lwj, K, bj2, bv2, hlwj, hK, hbj2, hbv2, rfl⟩ := createDense_spec hbuild
  rw [hsrc] at hlwj
  have hlwj2 : Json.arr rows = lwj := Option.some_inj.mp hlwj
  subst hlwj2
  rw [hbj] at hbj2
  have hbj3 : bj = bj2 := Option.some_inj.mp hbj2
  subst hbj3
  rw [hbv] at hbv2
  have hbv3 : bv = bv2 := Option.some_inj.mp hbv2
  subst hbv3
  exact ⟨loadDenseKernel_val hK i row o v hrow hcell, rfl⟩

/-- Closed witness for `dense_load_transposes` on a concrete 2×2 block. -/
theorem dense_load_transposes_witness :
    getCell (Dense.kernel ⟨2, 2, [[1, 3], [2, 4]], [5, 6]⟩) 1 0 = some 2 ∧
      Dense.bias ⟨2, 2, [[1, 3], [2, 4]], [5, 6]⟩ = [5, 6] :=
  @dense_load_transposes 2 2
    (.arr [.arr [.arr [.num 1, .num 2], .arr [.num 3, .num 4]],
      .arr [.num 5, .num 6]])
    ⟨2, 2, [[1, 3], [2, 4]], [5, 6]⟩
    [.arr [.num 1, .num 2], .arr [.num 3, .num 4]]
    [.num 1, .num 2] 0 1 2 (.arr [.num 5, .num 6]) [5, 6]
    (by rfl) (by rfl) (by rfl) (by rfl) (by rfl) (by rfl)

/-- **C2**: an LSTM layer built from a weights block copies both kernel
matrices without transposition — wherever a source array has a value at
`[i][j]`, the loaded kernel has it at `[i][j]` — and both kernels have
`4 * out_size` columns, the input kernel `in_size` rows and the recurrent
kernel `out_size` rows. -/
theorem lstm_load_identity {in_size out_size : Int} {w : Json} {u : LSTMLayer}
    (hbuild : createLSTM in_size out_size w = some u) :
    (u.wVals.length = in_size.toNat ∧
      ∀ r ∈ u.wVals, r.length = (4 * out_size).toNat) ∧
    (u.uVals.length = out_size.toNat ∧
      ∀ r ∈ u.uVals, r.length = (4 * out_size).toNat) ∧
    (∀ (rows row : List Json) (i j : Nat) (v : Int),
      w.at? 0 = some (.arr rows) → rows[i]? = some (.arr row) →
      row[j]? = some (.num v) → getCell u.wVals i j = some v) ∧
    (∀ (rows row : List Json) (i j : Nat) (v : Int),
      w.at? 1 = some (.arr rows) → rows[i]? = some (.arr row) →
      row[j]? = some (.num v) → getCell u.uVals i j = some v) := by
  obtain ⟨lwj, Kw, lwj2, Ku, bj, bv, hlwj, hKw, hlwj2, hKu, hbj, hbv, rfl⟩ :=
    createLSTM_spec hbuild
  refine ⟨loadLSTMKernel_shape hKw, loadLSTMKernel_shape hKu, ?_, ?_⟩
  · intro rows row i j v hr0 hrow hcell
    rw [hr0] at hlwj
    have heq : Json.arr rows = lwj := Option.some_inj.mp hlwj
    subst heq
    exact loadLSTMKernel_val hKw i row j v hrow hcell
  · intro rows row i j v hr1 hrow hcell
    rw [hr1] at hlwj2
    have heq : Json.arr rows = lwj2 := Option.some_inj.mp hlwj2
    subst heq
    exact loadLSTMKernel_val hKu i row j v hrow hcell

/-- Closed witness for `lstm_load_identity` on a concrete block
(`in_size = 2`, `out_size = 1`). -/
theorem lstm_load_identity_witness :
    (LSTMLayer.wVals ⟨2, 1, [[1, 2, 3, 4], [5, 6, 7, 8]], [[9, 10, 11, 12]],
        [1, 2, 3, 4]⟩).length = (2 : Int).toNat ∧
      getCell (LSTMLayer.wVals ⟨2, 1, [[1, 2, 3, 4], [5, 6, 7, 8]],
        [[9, 10, 11, 12]], [1, 2, 3, 4]⟩) 1 2 = some 7 := by
  have h := @lstm_load_identity 2 1
    (.arr [.arr [.arr [.num 1, .num 2, .num 3, .num 4],
        .arr [.num 5, .num 6, .num 7, .num 8]],
      .arr [.arr [.num 9, .num 10, .num 11, .num 12]],
      .arr [.num 1, .num 2, .num 3, .num 4]])
    ⟨2, 1, [[1, 2, 3, 4], [5, 6, 7, 8]], [[9, 10, 11, 12]], [1, 2, 3, 4]⟩
    (by rfl)
  refine ⟨h.1.1, ?_⟩
  exact h.2.2.1 [.arr [.num 1, .num 2, .num 3, .num 4],
      .arr [.num 5, .num 6, .num 7, .num 8]]
    [.num 5, .num 6, .num 7, .num 8] 1 2 7 (by rfl) (by rfl) (by rfl)

/-! ### Claim C3: shape resolution -/

/-- Counterexample to **C3** as stated: a 3-element shape sequence does not
fail — shape resolution returns its last element. -/
theorem resolveShape_len3_no_failure :
    resolveShape (.arr [.num 1, .num 2, .num 5]) = some 5 := by rfl

/-- **C3** (amended): shape resolution returns the product of the 3rd and
4th entries for 4-element sequences and the last entry otherwise; a
sequence whose length is neither 2 nor 4 does not fail — only the empty
sequence yields no value. -/
theorem resolveShape_rule (b t c f : Int) (s : List Json) (v : Int)
    (hlen : s.length ≠ 4) (hlast : s.getLast? = some (.num v)) :
    resolveShape (.arr [.num b, .num t, .num c, .num f]) = some (c * f) ∧
    resolveShape (.arr s) = some v ∧
    resolveShape (.arr []) = none := by
  refine ⟨by rfl, ?_, by rfl⟩
  unfold resolveShape
  rw [if_neg (by simpa [Json.size] using hlen)]
  simp [Json.back?, hlast, Json.getInt?]

/-- Closed witness for `resolveShape_rule`. -/
theorem resolveShape_rule_witness :
    resolveShape (.arr [.num 1, .num 1, .num 2, .num 3]) = some (2 * 3) ∧
    resolveShape (.arr [.num 9, .num 7]) = some 7 ∧
    resolveShape (.arr []) = none :=
  resolveShape_rule 1 1 2 3 [.num 9, .num 7] 7 (by decide) (by rfl)

/-! ### Claim C4: dimension mismatches -/

/-- Counterexample to **C4** as stated: a weights block whose inner arrays
are shorter than the declared sizes (a 1×1 source array for a 2×2 dense
layer) does not fail the build — the uncovered kernel entries are silently
left at their zero initialization. -/
theorem dense_short_block_padded :
    createDense 2 2 (.arr [.arr [.arr [.num 7]], .arr [.num 1, .num 2]]) =
      some ⟨2, 2, [[7, 0], [0, 0]], [1, 2]⟩ := by rfl

/-- **C4** (amended): source arrays longer than the declared dimensions do
fail the build — the bounds-checked writes throw, so a successfully built
layer can only come from a block whose rows fit within the destination
sizes; shorter source arrays, however, are silently zero-padded (see the
counterexample `dense_short_block_padded`). -/
theorem load_bounds {in_size out_size : Int} {w : Json} :
    (∀ d : Dense, createDense in_size out_size w = some d →
      ∀ (lwj lw : Json) (i : Nat), w.at? 0 = some lwj → lwj.at? i = some lw →
        ∀ j, j < lw.size → j < out_size.toNat ∧ i < in_size.toNat) ∧
    (∀ u : LSTMLayer, createLSTM in_size out_size w = some u →
      (∀ (lwj lw : Json) (i : Nat), w.at? 0 = some lwj → lwj.at? i = some lw →
        ∀ j, j < lw.size → i < in_size.toNat ∧ j < (4 * out_size).toNat) ∧
      (∀ (lwj lw : Json) (i : Nat), w.at? 1 = some lwj → lwj.at? i = some lw →
        ∀ j, j < lw.size → i < out_size.toNat ∧ j < (4 * out_size).toNat)) := by
  constructor
  · intro d hd lwj lw i hw hlw j hj
    obtain ⟨lwj2, K, bj, bv, hlwj2, hK, _, _, _⟩ := createDense_spec hd
    rw [hw] at hlwj2
    have heq : lwj = lwj2 := Option.some_inj.mp hlwj2
    subst heq
    exact loadDenseKernel_bound hK i lw hlw j hj
  · intro u hu
    obtain ⟨lwj0, Kw, lwj1, Ku, bj, bv, hl0, hKw, hl1, hKu, _, _, _⟩ :=
      createLSTM_spec hu
    constructor
    · intro lwj lw i hw hlw j hj
      rw [hw] at hl0
      have heq : lwj = lwj0 := Option.some_inj.mp hl0
      subst heq
      exact loadLSTMKernel_bound hKw i lw hlw j hj
    · intro lwj lw i hw hlw j hj
      rw [hw] at hl1
      have heq : lwj = lwj1 := Option.some_inj.mp hl1
      subst heq
      exact loadLSTMKernel_bound hKu i lw hlw j hj

/-- Closed witness for `load_bounds` on a successfully built 2×2 dense
layer. -/
theorem load_bounds_witness :
    (1 : Nat) < (2 : Int).toNat ∧ (0 : Nat) < (2 : Int).toNat := by
  have h := (@load_bounds 2 2
    (.arr [.arr [.arr [.num 10, .num 20], .arr [.num 30, .num 40]],
      .arr [.num 50, .num 60]])).1
    ⟨2, 2, [[10, 30], [20, 40]], [50, 60]⟩ (by rfl)
    (.arr [.arr [.num 10, .num 20], .arr [.num 30, .num 40]])
    (.arr [.num 10, .num 20]) 0 (by rfl) (by rfl) 1 (by decide)
  exact ⟨h.1, h.2⟩

/-! ### Lemmas: the build loop -/

theorem contains_of_key {l : Json} {k : String} {x : Json}
    (h : l.key? k = some x) : l.contains k = true := by
  unfold Json.contains
  rw [h]
  rfl

theorem addActivation_present {layerDims : Int} {m : Model} {l : Json} {act : String}
    (hact : (l.key? "activation").bind Json.getStr? = some act) (hne : act ≠ "") :
    addActivation layerDims m l =
      some (m.addLayer ((createActivation act layerDims).map Layer.activation)) := by
  obtain ⟨x, hx, hgs⟩ := Option.bind_eq_some.mp hact
  unfold addActivation
  rw [if_pos (contains_of_key hx), hact]
  simp only [Option.bind_eq_bind, Option.some_bind]
  rw [if_neg hne]
  rfl

theorem processLayer_activation_entry {m : Model} {l : Json} {act : String}
    {shape w : Json} {dims : Int}
    (hty : (l.key? "type").bind Json.getStr? = some "activation")
    (hsh : l.key? "shape" = some shape)
    (hdims : resolveShape shape = some dims)
    (hw : l.key? "weights" = some w)
    (hact : (l.key? "activation").bind Json.getStr? = some act)
    (hne : act ≠ "") :
    processLayer m l =
      some (m.addLayer ((createActivation act dims).map Layer.activation)) := by
  unfold processLayer
  rw [hty]
  simp only [Option.bind_eq_bind, Option.some_bind]
  rw [hsh]
  simp only [Option.some_bind]
  rw [hdims]
  simp only [Option.some_bind]
  rw [hw]
  simp only [Option.some_bind]
  rw [if_neg (by decide), if_neg (by decide), if_pos trivial]
  exact addActivation_present hact hne

theorem processLayer_unknown_skip {m : Model} {l : Json} {ty : String}
    {shape w : Json} {dims : Int}
    (hty : (l.key? "type").bind Json.getStr? = some ty)
    (hsh : l.key? "shape" = some shape)
    (hdims : resolveShape shape = some dims)
    (hw : l.key? "weights" = some w)
    (h1 : ty ≠ "dense") (h2 : ty ≠ "time-distributed-dense")
    (h3 : ty ≠ "lstm") (h4 : ty ≠ "activation") :
    processLayer m l = some m := by
  unfold processLayer
  rw [hty]
  simp only [Option.bind_eq_bind, Option.some_bind]
  rw [hsh]
  simp only [Option.some_bind]
  rw [hdims]
  simp only [Option.some_bind]
  rw [hw]
  simp only [Option.some_bind]
  rw [if_neg (by simp [h1, h2]), if_neg h3, if_neg h4]
  rfl

theorem processLayer_dense_spec {m m' : Model} {l : Json} {ty act : String}
    {shape w : Json} {dims : Int}
    (hty : (l.key? "type").bind Json.getStr? = some ty)
    (htyd : ty = "dense" ∨ ty = "time-distributed-dense")
    (hsh : l.key? "shape" = some shape)
    (hdims : resolveShape shape = some dims)
    (hw : l.key? "weights" = some w)
    (hact : (l.key? "activation").bind Json.getStr? = some act)
    (hne : act ≠ "")
    (hstep : processLayer m l = some m') :
    ∃ d : Dense, createDense m.getNextInSize dims w = some d ∧
      m' = (m.addLayer (some (.dense d))).addLayer
        ((createActivation act dims).map Layer.activation) := by
  unfold processLayer at hstep
  rw [hty] at hstep
  simp only [Option.bind_eq_bind, Option.some_bind] at hstep
  rw [hsh] at hstep
  simp only [Option.some_bind] at hstep
  rw [hdims] at hstep
  simp only [Option.some_bind] at hstep
  rw [hw] at hstep
  simp only [Option.some_bind] at hstep
  rw [if_pos htyd] at hstep
  obtain ⟨d, hd, hstep⟩ := Option.bind_eq_some.mp hstep
  rw [addActivation_present hact hne] at hstep
  exact ⟨d, hd, (Option.some_inj.mp hstep).symm⟩

theorem processLayer_lstm_spec {m m' : Model} {l : Json}
    {shape w : Json} {dims : Int}
    (hty : (l.key? "type").bind Json.getStr? = some "lstm")
    (hsh : l.key? "shape" = some shape)
    (hdims : resolveShape shape = some dims)
    (hw : l.key? "weights" = some w)
    (hstep : processLayer m l = some m') :
    ∃ u : LSTMLayer, createLSTM m.getNextInSize dims w = some u ∧
      m' = m.addLayer (some (.lstm u)) := by
  unfold processLayer at hstep
  rw [hty] at hstep
  simp only [Option.bind_eq_bind, Option.some_bind] at hstep
  rw [hsh] at hstep
  simp only [Option.some_bind] at hstep
  rw [hdims] at hstep
  simp only [Option.some_bind] at hstep
  rw [hw] at hstep
  simp only [Option.some_bind] at hstep
  rw [if_neg (by decide), if_pos trivial] at hstep
  obtain ⟨u, hu, hstep⟩ := Option.bind_eq_some.mp hstep
  simp only [Option.pure_def, Option.some.injEq] at hstep
  exact ⟨u, hu, hstep.symm⟩

theorem createActivation_spec {t : String} {dims : Int} {a : Activation}
    (h : createActivation t dims = some a) : a.out_size = dims ∧ a.name = t := by
  unfold createActivation at h
  split_ifs at h with h1 h2 h3 h4 h5
  · have heq := Option.some_inj.mp h
    subst heq
    exact ⟨rfl, h1.symm⟩
  · have heq := Option.some_inj.mp h
    subst heq
    exact ⟨rfl, h2.symm⟩
  · have heq := Option.some_inj.mp h
    subst heq
    exact ⟨rfl, h3.symm⟩
  · have heq := Option.some_inj.mp h
    subst heq
    exact ⟨rfl, h4.symm⟩
  · have heq := Option.some_inj.mp h
    subst heq
    exact ⟨rfl, h5.symm⟩

/-! ### Claim C5: dense entries chain an activation, lstm entries never do -/

/-- **C5**: in the build loop, a dense or time-distributed-dense entry
appends the dense layer and then — its activation field being present and
non-empty — an activation layer sized to the entry's resolved output
dimensionality; an lstm entry appends only the LSTM layer and never a
trailing activation, even though its activation field is present and
non-empty. -/
theorem build_loop_dense_vs_lstm {m m' : Model} {l : Json} {ty act : String}
    {shape w : Json} {dims : Int}
    (hty : (l.key? "type").bind Json.getStr? = some ty)
    (hsh : l.key? "shape" = some shape)
    (hdims : resolveShape shape = some dims)
    (hw : l.key? "weights" = some w)
    (hact : (l.key? "activation").bind Json.getStr? = some act)
    (hne : act ≠ "")
    (hstep : processLayer m l = some m') :
    ((ty = "dense" ∨ ty = "time-distributed-dense") →
      ∃ d : Dense, m'.layers = m.layers ++
        [some (.dense d), (createActivation act dims).map Layer.activation]) ∧
    (ty = "lstm" →
      ∃ u : LSTMLayer, m'.layers = m.layers ++ [some (.lstm u)]) := by
  constructor
  · intro htyd
    obtain ⟨d, hd, rfl⟩ :=
      processLayer_dense_spec hty htyd hsh hdims hw hact hne hstep
    exact ⟨d, by simp [Model.addLayer]⟩
  · intro htyl
    subst htyl
    obtain ⟨u, hu, rfl⟩ := processLayer_lstm_spec hty hsh hdims hw hstep
    exact ⟨u, by simp [Model.addLayer]⟩

/-- Closed witness for `build_loop_dense_vs_lstm`: a dense entry with a
`tanh` activation appends two layers; an lstm entry with a `relu`
activation appends exactly one. -/
theorem build_loop_dense_vs_lstm_witness :
    (∃ d : Dense, (Model.layers ⟨1, [some (.dense ⟨1, 1, [[2]], [3]⟩),
        some (.activation ⟨1, "tanh"⟩)], 1⟩) =
      (Model.new 1).layers ++ [some (.dense d),
        (createActivation "tanh" 1).map Layer.activation]) ∧
    (∃ u : LSTMLayer, (Model.layers ⟨1,
        [some (.lstm ⟨1, 1, [[1, 2, 3, 4]], [[5, 6, 7, 8]], [1, 1, 1, 1]⟩)], 1⟩) =
      (Model.new 1).layers ++ [some (.lstm u)]) := by
  constructor
  · exact (@build_loop_dense_vs_lstm (Model.new 1)
      ⟨1, [some (.dense ⟨1, 1, [[2]], [3]⟩), some (.activation ⟨1, "tanh"⟩)], 1⟩
      (.obj [("type", .str "dense"), ("shape", .arr [.num 1, .num 1]),
        ("weights", .arr [.arr [.arr [.num 2]], .arr [.num 3]]),
        ("activation", .str "tanh")])
      "dense" "tanh" (.arr [.num 1, .num 1])
      (.arr [.arr [.arr [.num 2]], .arr [.num 3]]) 1
      (by rfl) (by rfl) (by rfl) (by rfl) (by rfl) (by decide) (by rfl)).1
      (Or.inl rfl)
  · exact (@build_loop_dense_vs_lstm (Model.new 1)
      ⟨1, [some (.lstm ⟨1, 1, [[1, 2, 3, 4]], [[5, 6, 7, 8]], [1, 1, 1, 1]⟩)], 1⟩
      (.obj [("type", .str "lstm"), ("shape", .arr [.num 1, .num 1]),
        ("weights", .arr [.arr [.arr [.num 1, .num 2, .num 3, .num 4]],
          .arr [.arr [.num 5, .num 6, .num 7, .num 8]],
          .arr [.num 1, .num 1, .num 1, .num 1]]),
        ("activation", .str "relu")])
      "lstm" "relu" (.arr [.num 1, .num 1])
      (.arr [.arr [.arr [.num 1, .num 2, .num 3, .num 4]],
        .arr [.arr [.num 5, .num 6, .num 7, .num 8]],
        .arr [.num 1, .num 1, .num 1, .num 1]]) 1
      (by rfl) (by rfl) (by rfl) (by rfl) (by rfl) (by decide) (by rfl)).2 rfl

/-! ### Claim C6: unrecognized type tags -/

/-- Counterexample to **C6** as stated: an entry whose type tag is outside
the recognized set is not always silently skipped — one carrying only its
type tag (no shape, no weights) fails the build, because those fields are
read before the dispatch. -/
theorem unknown_type_missing_fields_fails :
    processLayer (Model.new 1) (.obj [("type", .str "conv")]) = none := by rfl

/-- **C6** (amended): an entry with an unrecognized type tag whose shape
resolves and whose weights field is present is silently skipped — the model
comes back unchanged, no error is raised, and the remaining entries are
processed from the same state; but the entry's shape and weights fields are
still demanded, so an unknown-tag entry missing them fails the build. -/
theorem unknown_type_skipped {m : Model} {l : Json} {ty : String}
    {shape w : Json} {dims : Int}
    (hty : (l.key? "type").bind Json.getStr? = some ty)
    (hsh : l.key? "shape" = some shape)
    (hdims : resolveShape shape = some dims)
    (hw : l.key? "weights" = some w)
    (h1 : ty ≠ "dense") (h2 : ty ≠ "time-distributed-dense")
    (h3 : ty ≠ "lstm") (h4 : ty ≠ "activation") :
    processLayer m l = some m :=
  processLayer_unknown_skip hty hsh hdims hw h1 h2 h3 h4

/-- Closed witness for `unknown_type_skipped`: a `conv` entry with shape
and weights present leaves the model untouched. -/
theorem unknown_type_skipped_witness :
    processLayer (Model.new 1) (.obj [("type", .str "conv"),
      ("shape", .arr [.num 1, .num 1]), ("weights", .arr [])]) =
      some (Model.new 1) :=
  @unknown_type_skipped (Model.new 1)
    (.obj [("type", .str "conv"), ("shape", .arr [.num 1, .num 1]),
      ("weights", .arr [])])
    "conv" (.arr [.num 1, .num 1]) (.arr []) 1
    (by rfl) (by rfl) (by rfl) (by rfl)
    (by decide) (by decide) (by decide) (by decide)

/-! ### Claim C7: activation entries and the weights field -/

/-- Counterexample to **C7** as stated: an activation entry that omits the
weights field entirely is not accepted — the build fails, because
`at("weights")` is read unconditionally before the type dispatch. -/
theorem activation_without_weights_fails :
    parseJson (.obj [("in_shape", .arr [.num 1, .num 4]),
      ("layers", .arr [.obj [("type", .str "activation"),
        ("shape", .arr [.num 1, .num 4]),
        ("activation", .str "tanh")]])]) = none := by rfl

/-- **C7** (amended): an activation entry must still carry a weights field
— it is read before the dispatch on the type tag — but its value is
ignored: with any weights value present (for instance an empty array) the
entry is accepted and only the activation layer is appended. -/
theorem activation_entry_weights_ignored {m : Model} {l : Json} {act : String}
    {shape w : Json} {dims : Int}
    (hty : (l.key? "type").bind Json.getStr? = some "activation")
    (hsh : l.key? "shape" = some shape)
    (hdims : resolveShape shape = some dims)
    (hw : l.key? "weights" = some w)
    (hact : (l.key? "activation").bind Json.getStr? = some act)
    (hne : act ≠ "") :
    processLayer m l =
      some (m.addLayer ((createActivation act dims).map Layer.activation)) :=
  processLayer_activation_entry hty hsh hdims hw hact hne

/-- Closed witness for `activation_entry_weights_ignored`: a pure
activation entry whose weights field is an empty array is accepted. -/
theorem activation_entry_weights_ignored_witness :
    processLayer (Model.new 4) (.obj [("type", .str "activation"),
      ("shape", .arr [.num 1, .num 4]), ("weights", .arr []),
      ("activation", .str "tanh")]) =
      some ((Model.new 4).addLayer
        ((createActivation "tanh" 4).map Layer.activation)) :=
  @activation_entry_weights_ignored (Model.new 4)
    (.obj [("type", .str "activation"), ("shape", .arr [.num 1, .num 4]),
      ("weights", .arr []), ("activation", .str "tanh")])
    "tanh" (.arr [.num 1, .num 4]) (.arr []) 4
    (by rfl) (by rfl) (by rfl) (by rfl) (by rfl) (by decide)

/-! ### Claim C8: the validators -/

/-- **C8**: a layer built from a spec validates against that spec's kind
tag and resolved dimensionality; a wrong tag or a wrong size fails the
check. The checks are pure boolean functions of the layer — they return
only a verdict and cannot mutate the layer they inspect. -/
theorem validator_round_trip {in_size out_size dims : Int} {w : Json} :
    (∀ d : Dense, createDense in_size out_size w = some d →
      (checkDense d "dense" out_size = true ∧
        checkDense d "time-distributed-dense" out_size = true) ∧
      (∀ ty : String, ty ≠ "dense" → ty ≠ "time-distributed-dense" →
        checkDense d ty out_size = false) ∧
      (∀ s : Int, s ≠ out_size → checkDense d "dense" s = false)) ∧
    (∀ u : LSTMLayer, createLSTM in_size out_size w = some u →
      checkLSTM u "lstm" out_size = true ∧
      (∀ ty : String, ty ≠ "lstm" → checkLSTM u ty out_size = false) ∧
      (∀ s : Int, s ≠ out_size → checkLSTM u "lstm" s = false)) ∧
    (∀ (t : String) (a : Activation), createActivation t dims = some a →
      checkActivation a t dims = true ∧
      (∀ t2 : String, t2 ≠ t → checkActivation a t2 dims = false) ∧
      (∀ s : Int, s ≠ dims → checkActivation a t s = false)) := by
  refine ⟨?_, ?_, ?_⟩
  · intro d hd
    obtain ⟨lwj, K, bj, bv, _, _, _, _, rfl⟩ := createDense_spec hd
    refine ⟨⟨by simp [checkDense], by simp [checkDense]⟩, ?_, ?_⟩
    · intro ty hty1 hty2
      simp [checkDense, hty1, hty2]
    · intro s hs
      simp [checkDense, hs]
  · intro u hu
    obtain ⟨lwj, Kw, lwj2, Ku, bj, bv, _, _, _, _, _, _, rfl⟩ := createLSTM_spec hu
    refine ⟨by simp [checkLSTM], ?_, ?_⟩
    · intro ty hty1
      simp [checkLSTM, hty1]
    · intro s hs
      simp [checkLSTM, hs]
  · intro t a ha
    obtain ⟨hsize, hname⟩ := createActivation_spec ha
    refine ⟨by simp [checkActivation, hsize, hname], ?_, ?_⟩
    · intro t2 ht2
      have : t2 ≠ a.name := by rw [hname]; exact ht2
      simp [checkActivation, this]
    · intro s hs
      have : s ≠ a.out_size := by rw [hsize]; exact hs
      simp [checkActivation, this]

/-- Closed witness for `validator_round_trip` on a 1×1 dense layer and a
`tanh` activation. -/
theorem validator_round_trip_witness :
    checkDense ⟨1, 1, [[2]], [3]⟩ "dense" 1 = true ∧
    checkDense ⟨1, 1, [[2]], [3]⟩ "conv" 1 = false ∧
    checkDense ⟨1, 1, [[2]], [3]⟩ "dense" 2 = false ∧
    checkActivation ⟨4, "tanh"⟩ "tanh" 4 = true ∧
    checkActivation ⟨4, "tanh"⟩ "relu" 4 = false := by
  have h := @validator_round_trip 1 1 4
    (.arr [.arr [.arr [.num 2]], .arr [.num 3]])
  have hd := h.1 ⟨1, 1, [[2]], [3]⟩ (by rfl)
  have ha := h.2.2 "tanh" ⟨4, "tanh"⟩ (by rfl)
  exact ⟨hd.1.1, hd.2.1 "conv" (by decide) (by decide), hd.2.2 2 (by decide),
    ha.1, ha.2.1 "relu" (by decide)⟩

/-! ### Claim C9: in_shape and layers must be present arrays -/

/-- **C9**: a document whose `in_shape` or `layers` field is present but
not array-typed yields no model at all (never a partially built one), and
a document missing either field fails the build. -/
theorem parse_requires_arrays {parent : Json} :
    (∀ s, parent.key? "in_shape" = some s → s.isArray = false →
      parseJson parent = none) ∧
    (∀ ls, parent.key? "layers" = some ls → ls.isArray = false →
      parseJson parent = none) ∧
    (parent.key? "in_shape" = none → parseJson parent = none) ∧
    (parent.key? "layers" = none → parseJson parent = none) := by
  refine ⟨?_, ?_, ?_, ?_⟩
  · intro s hs hsa
    unfold parseJson
    rw [hs]
    simp only [Option.bind_eq_bind, Option.some_bind]
    cases hl : parent.key? "layers" with
    | none => rfl
    | some ls =>
      simp only [Option.some_bind]
      rw [if_neg (by simp [hsa])]
  · intro ls hl hla
    unfold parseJson
    rw [hl]
    cases hs : parent.key? "in_shape" with
    | none => rfl
    | some s =>
      simp only [Option.bind_eq_bind, Option.some_bind]
      rw [if_neg (by simp [hla])]
  · intro hs
    unfold parseJson
    rw [hs]
    rfl
  · intro hl
    unfold parseJson
    rw [hl]
    cases hs : parent.key? "in_shape" with
    | none => rfl
    | some s => rfl

/-- Closed witness for `parse_requires_arrays`: a numeric `in_shape` and a
missing `layers` field each yield no model. -/
theorem parse_requires_arrays_witness :
    parseJson (.obj [("in_shape", .num 4), ("layers", .arr [])]) = none ∧
    parseJson (.obj [("in_shape", .arr [.num 1, .num 2])]) = none := by
  constructor
  · exact (parse_requires_arrays).1 (.num 4) (by rfl) (by rfl)
  · exact (parse_requires_arrays).2.2.2 (by rfl)

/-! ### Claim C10: unknown activation names append a null layer -/

/-- **C10**: a present, non-empty activation name outside the five
recognized ones makes `createActivation` return an absent result, and the
build loop still appends the released null pointer — the model receives a
null layer entry instead of the activation being skipped or an error being
raised. -/
theorem unknown_activation_null_appended {m : Model} {l : Json} {act : String}
    {shape w : Json} {dims : Int}
    (hty : (l.key? "type").bind Json.getStr? = some "activation")
    (hsh : l.key? "shape" = some shape)
    (hdims : resolveShape shape = some dims)
    (hw : l.key? "weights" = some w)
    (hact : (l.key? "activation").bind Json.getStr? = some act)
    (hne : act ≠ "")
    (h1 : act ≠ "tanh") (h2 : act ≠ "relu") (h3 : act ≠ "sigmoid")
    (h4 : act ≠ "softmax") (h5 : act ≠ "elu") :
    createActivation act dims = none ∧
    processLayer m l = some (m.addLayer none) := by
  have hnone : createActivation act dims = none := by
    unfold createActivation
    rw [if_neg h1, if_neg h2, if_neg h3, if_neg h4, if_neg h5]
  refine ⟨hnone, ?_⟩
  have heq := processLayer_activation_entry (m := m) hty hsh hdims hw hact hne
  rw [heq, hnone]
  rfl

/-- Closed witness for `unknown_activation_null_appended` with the
unrecognized name "swish". -/
theorem unknown_activation_null_appended_witness :
    createActivation "swish" 4 = none ∧
    processLayer (Model.new 4) (.obj [("type", .str "activation"),
      ("shape", .arr [.num 1, .num 4]), ("weights", .arr []),
      ("activation", .str "swish")]) =
      some ((Model.new 4).addLayer none) :=
  @unknown_activation_null_appended (Model.new 4)
    (.obj [("type", .str "activation"), ("shape", .arr [.num 1, .num 4]),
      ("weights", .arr []), ("activation", .str "swish")])
    "swish" (.arr [.num 1, .num 4]) (.arr []) 4
    (by rfl) (by rfl) (by rfl) (by rfl) (by rfl)
    (by decide) (by decide) (by decide) (by decide) (by decide) (by decide)

end RTNeuralSpec
